import Mathlib

/-!
Verification of the soft-OTA update client (src/ota_client.py) against its
natural-language specification.

The Python source is shallowly embedded: bytes are natural numbers, the flash
filesystem is an association list from file names to byte contents, the
chunked receive loop and the double SHA-256 verification of
SoftOtaUpdate.command_receive_file are executable functions, and the SHA-256
primitive itself (uhashlib.sha256, an external library) is a parameter of
every definition that hashes: a hasher's state is the list of bytes fed to it
so far, and its digest is sha applied to that list.

File writes are modelled as write-through (a written byte is on flash at
once).  reset(reason) models two seconds of diagnostics followed by
machine.reset(), a hard reset that halts execution immediately: enclosing
finally blocks do not run after it.
-/

namespace OtaClient

/-- Lowercase hex digit, as produced by ubinascii.hexlify. -/
def hexChar (n : Nat) : Char :=
  if n < 10 then Char.ofNat (48 + n) else Char.ofNat (87 + n)

/-- ubinascii.hexlify(...).decode('utf-8'): two lowercase hex digits per byte. -/
def hexlify (bs : List Nat) : String :=
  String.mk (bs.foldr (fun b acc => hexChar (b / 16 % 16) :: hexChar (b % 16) :: acc) [])

/-- Python str.endswith: the last characters of s are exactly t. -/
def strEndsWith (s t : String) : Bool :=
  decide (s.data.reverse.take t.data.length = t.data.reverse)

/-- For a file_name ending in '.mpy', this is
"%s.py" % file_name.rsplit('.', 1)[0] (ota_client.py line 234): the last four
characters '.mpy' are dropped and '.py' is appended. -/
def pyName (file_name : String) : String :=
  String.mk (file_name.data.take (file_name.data.length - 4)) ++ ".py"

/-- The flash filesystem: file name to byte content. -/
abbrev Fs : Type := List (String × List Nat)

/-- Content stored under a name, if any. -/
def fsGet : Fs → String → Option (List Nat)
  | [], _ => none
  | (k, v) :: rest, n => if k = n then some v else fsGet rest n

/-- uos.remove with a does-not-exist error ignored. -/
def fsRemove : Fs → String → Fs
  | [], _ => []
  | (k, v) :: rest, n => if k = n then fsRemove rest n else (k, v) :: fsRemove rest n

/-- open(name, 'wb') followed by writes: create or truncate, then store. -/
def fsSet (fs : Fs) (n : String) (v : List Nat) : Fs := (n, v) :: fsRemove fs n

/-- uos.rename: move the content stored under a to b.  (If a were absent,
uos.rename would raise; the model leaves the filesystem unchanged then, and
the embedding only reaches this operation with a present.) -/
def fsRename (fs : Fs) (a b : String) : Fs :=
  match fsGet fs a with
  | some v => fsSet (fsRemove fs a) b v
  | none => fs

/-- The chunked receive loop of command_receive_file (ota_client.py lines
188-201).  Each element of chunks is what one `await reader.read(_CHUNK_SIZE)`
call returns; an exhausted list models a read that yields no bytes.  Returns
the bytes written to the temp file, the final value of `received`, and whether
the loop ended by reaching the declared size (false: some read yielded zero
bytes, so error('No file data') fired). -/
def recvLoop (file_size : Nat) : List Nat → Nat → List (List Nat) → List Nat × Nat × Bool
  | buf, received, [] => (buf, received, false)
  | buf, received, data :: rest =>
    if data = [] then (buf, received, false)
    else if file_size ≤ received + data.length then
      (buf ++ data, received + data.length, true)
    else recvLoop file_size (buf ++ data) (received + data.length) rest

/-- The second-pass re-read of the temp file (ota_client.py lines 214-221):
f.readinto(_BUFFER, _CHUNK_SIZE) reads min(512, remaining) bytes; a short read
hashes only the bytes read and stops, a full read hashes the whole buffer and
continues.  Returns the bytes fed to the second sha256 hasher when the
remaining file content is rest. -/
def rereadLoop (fed : List Nat) (rest : List Nat) : List Nat :=
  if _h : rest.length < 512 then fed ++ rest
  else rereadLoop (fed ++ rest.take 512) (rest.drop 512)
termination_by rest.length
decreasing_by simp only [List.length_drop]; omega

/-- How command_receive_file ends: the final 'OK', or error() with do_reset
left at its default True, i.e. a hard device reset.  The reset halts execution
at once, so the finally block (temp-file cleanup) does not run after it. -/
inductive Outcome
  | ok
  | reset (reason : String)
  deriving DecidableEq, Repr

/-- Result of one command_receive_file invocation: the filesystem afterwards,
the response lines written (starting with the header acknowledgement 'OK'),
and how the command ended. -/
structure RecvResult where
  fs : Fs
  lines : List String
  outcome : Outcome
  deriving DecidableEq, Repr

/-- SoftOtaUpdate.command_receive_file (ota_client.py lines 174-249), entered
after the three header lines (target name, declared decimal size, declared hex
digest) have been read; the header acknowledgement 'OK' is the first response
line.  sha is the external SHA-256 primitive: digest bytes of the byte list
fed to a hasher. -/
def receive_file (sha : List Nat → List Nat) (fs : Fs) (file_name : String)
    (file_size : Nat) (file_sha256 : String) (chunks : List (List Nat)) : RecvResult :=
  let temp_file_name := file_name ++ ".temp"
  let res := recvLoop file_size [] 0 chunks
  let buf := res.1
  let fs1 := fsSet fs temp_file_name buf
  if res.2.2 = false then
    ⟨fs1, ["OK", "No file data"], Outcome.reset "No file data"⟩
  else if buf.length ≠ file_size then
    ⟨fs1, ["OK", "Size error!"], Outcome.reset "Size error!"⟩
  else
    let hexdigest1 := hexlify (sha buf)
    if hexdigest1 = file_sha256 then
      let hexdigest2 := hexlify (sha (rereadLoop [] buf))
      if hexdigest2 = file_sha256 then
        let fs2 := fsRemove fs1 file_name
        let fs3 := fsRename fs2 temp_file_name file_name
        let fs4 := if strEndsWith file_name ".mpy" then fsRemove fs3 (pyName file_name) else fs3
        let fs5 := fsRemove fs4 temp_file_name
        ⟨fs5, ["OK", "OK"], Outcome.ok⟩
      else
        ⟨fs1, ["OK", "Hash error: " ++ hexdigest2], Outcome.reset ("Hash error: " ++ hexdigest2)⟩
    else
      ⟨fs1, ["OK", "Hash error: " ++ hexdigest1], Outcome.reset ("Hash error: " ++ hexdigest1)⟩

/-- The seven commands the dispatcher resolves: hasattr(self, 'command_%s' %
command) succeeds exactly for these names (the command_* methods of
SoftOtaUpdate). -/
def supportedCommands : List String :=
  ["send_ok", "exit", "chunk_size", "mpy_version", "frozen_info", "flash_info", "receive_file"]

/-- One command arriving on the session: the command line, whether its handler
raised an Exception while executing (modelling I/O or filesystem errors inside
a handler; such a raise is modelled as pre-empting the handler's own effects),
and, for receive_file, the three header lines and the raw chunks that follow
the command line on the wire. -/
structure Event where
  cmd : String
  raises : Bool
  fileName : String
  fileSize : Nat
  fileSha : String
  chunks : List (List Nat)

/-- A command line with no payload and a handler that does not raise. -/
def lineEvent (c : String) : Event := ⟨c, false, "", 0, "", []⟩

/-- A receive_file command line together with its header lines and chunks. -/
def fileEvent (n : String) (sz : Nat) (dg : String) (ch : List (List Nat)) : Event :=
  ⟨"receive_file", false, n, sz, dg, ch⟩

/-- A command line whose handler raises an Exception during execution. -/
def faultyEvent (c : String) : Event := ⟨c, true, "", 0, "", []⟩

/-- Session state: the flash filesystem and the response lines written so far. -/
structure SessState where
  fs : Fs
  out : List String
  deriving DecidableEq, Repr

/-- Result of dispatching one command (one iteration of the while-loop of
SoftOtaUpdate.__call__): the loop continues, or sys.exit(0) propagated
(command_exit), or the device hard-reset. -/
inductive StepRes
  | cont (st : SessState)
  | ended (st : SessState)
  | halted (reason : String) (st : SessState)
  deriving Repr

/-- One iteration of the command loop of SoftOtaUpdate.__call__ (ota_client.py
lines 99-112): read a command line; if hasattr fails, error('Command
unknown!', do_reset=False) and continue; otherwise run the handler inside
try/except Exception, answering 'Command error' (do_reset=False) and
continuing if it raised.  info gives the output of the mpy_version /
frozen_info / flash_info handlers, which depends on external device state. -/
def sessionStep (sha : List Nat → List Nat) (info : String → List String)
    (st : SessState) (e : Event) : StepRes :=
  if supportedCommands.contains e.cmd = false then
    StepRes.cont ⟨st.fs, st.out ++ ["Command unknown!"]⟩
  else if e.raises = true then
    StepRes.cont ⟨st.fs, st.out ++ ["Command error"]⟩
  else if e.cmd = "send_ok" then
    StepRes.cont ⟨st.fs, st.out ++ ["OK"]⟩
  else if e.cmd = "exit" then
    StepRes.ended ⟨st.fs, st.out ++ ["OK"]⟩
  else if e.cmd = "chunk_size" then
    StepRes.cont ⟨st.fs, st.out ++ ["512"]⟩
  else if e.cmd = "receive_file" then
    let r := receive_file sha st.fs e.fileName e.fileSize e.fileSha e.chunks
    match r.outcome with
    | Outcome.ok => StepRes.cont ⟨r.fs, st.out ++ r.lines⟩
    | Outcome.reset reason => StepRes.halted reason ⟨r.fs, st.out ++ r.lines⟩
  else
    StepRes.cont ⟨st.fs, st.out ++ info e.cmd⟩

/-- How a session run over a finite list of inbound commands ends: still
awaiting the next command, exited via command_exit, or hard-reset. -/
inductive SessEnd
  | running
  | exited
  | resetDev (reason : String)
  deriving DecidableEq, Repr

/-- The command loop of SoftOtaUpdate.__call__ driven by a finite list of
inbound commands. -/
def sessionRun (sha : List Nat → List Nat) (info : String → List String) :
    SessState → List Event → SessState × SessEnd
  | st, [] => (st, SessEnd.running)
  | st, e :: rest =>
    match sessionStep sha info st e with
    | StepRes.cont st' => sessionRun sha info st' rest
    | StepRes.ended st' => (st', SessEnd.exited)
    | StepRes.halted reason st' => (st', SessEnd.resetDev reason)

/-- The armed machine.Timer instances of the process, each identified by the
reason its Timeout carries, in arming order.  Timeout.__init__ creates a fresh
virtual timer (machine.Timer(-1)) and arms it; distinct Timer objects are
independent, so arming one does not touch the others. -/
structure TimerState where
  armed : List String
  deriving DecidableEq, Repr

/-- Timeout.__init__ (ota_client.py lines 40-48): arm one more timer. -/
def timeoutInit (ts : TimerState) (reason : String) : TimerState :=
  ⟨ts.armed ++ [reason]⟩

/-- self.timeout.deinit() (ota_client.py line 55): disarm the timer the
session currently holds, which is the most recently armed one. -/
def timeoutDeinit (ts : TimerState) : TimerState :=
  ⟨ts.armed.dropLast⟩

/-- The three places the program touches its Timeout guards: run() arms the
connection-wait guard (line 68); __call__ deinits it and arms the session
guard on accept (lines 94-96); command_exit deinits the session guard
(line 119). -/
inductive OtaEvent
  | runStart
  | acceptConn
  | exitCmd
  deriving DecidableEq, Repr

/-- Effect of each of those program points on the armed timers. -/
def otaTimerStep (ts : TimerState) : OtaEvent → TimerState
  | OtaEvent.runStart => timeoutInit ts "soft-OTA no connection"
  | OtaEvent.acceptConn => timeoutInit (timeoutDeinit ts) "soft-OTA timeout"
  | OtaEvent.exitCmd => timeoutDeinit ts

/-- Armed timers after a sequence of those program points, starting from a
fresh process with no timer armed. -/
def otaRun (es : List OtaEvent) : TimerState :=
  es.foldl otaTimerStep ⟨[]⟩

/-- The event sequences the program can have executed at any moment: run()
fires first, then at most one accept, then at most one exit. -/
def otaTraces : List (List OtaEvent) :=
  [[], [OtaEvent.runStart], [OtaEvent.runStart, OtaEvent.acceptConn],
   [OtaEvent.runStart, OtaEvent.acceptConn, OtaEvent.exitCmd]]

/-- A concrete stand-in for the external SHA-256 primitive, used to evaluate
the model on closed inputs: it digests everything to the single byte 0, whose
hex encoding is "00". -/
def shaX : List Nat → List Nat := fun _ => [0]

/-- A concrete stand-in for the external SHA-256 primitive whose digest is the
input's length as one byte, so different small inputs get different digests. -/
def shaW : List Nat → List Nat := fun l => [l.length]

/-- A concrete stand-in for the externally determined output of the
mpy_version / frozen_info / flash_info handlers. -/
def infoX : String → List String := fun _ => []

/-! Helper lemmas about the embedded primitives. -/

theorem string_data_append (s t : String) : (s ++ t).data = s.data ++ t.data := by
  cases s; cases t; rfl

theorem string_eq_iff_data (s t : String) : s = t ↔ s.data = t.data := by
  constructor
  · intro h; rw [h]
  · intro h; cases s; cases t; exact congrArg String.mk h

theorem temp_name_ne (n : String) : n ≠ n ++ ".temp" := by
  intro h
  have hd := (string_eq_iff_data _ _).mp h
  have hl := congrArg List.length hd
  rw [string_data_append, List.length_append] at hl
  simp at hl

theorem endsWith_mpy_len (n : String) (h : strEndsWith n ".mpy" = true) :
    4 ≤ n.data.length := by
  have hd := of_decide_eq_true h
  have hl := congrArg List.length hd
  rw [List.length_take, List.length_reverse] at hl
  have h4 : (".mpy".data).length = 4 := rfl
  have h4r : (".mpy".data.reverse).length = 4 := rfl
  rw [h4, h4r] at hl
  omega

theorem pyName_data_length (n : String) :
    (pyName n).data.length = (n.data.length - 4) + 3 := by
  unfold pyName
  rw [string_data_append]
  simp [List.length_take]

theorem pyName_ne_self (n : String) (h : strEndsWith n ".mpy" = true) :
    pyName n ≠ n := by
  intro he
  have h4 := endsWith_mpy_len n h
  have hl := congrArg (fun s => s.data.length) he
  simp only [pyName_data_length] at hl
  omega

theorem pyName_ne_temp (n : String) : pyName n ≠ n ++ ".temp" := by
  intro he
  have hl := congrArg (fun s : String => s.data.length) he
  simp only [pyName_data_length, string_data_append, List.length_append] at hl
  have h5 : (".temp".data).length = 5 := rfl
  rw [h5] at hl
  omega

theorem fsGet_fsRemove_self (fs : Fs) (n : String) : fsGet (fsRemove fs n) n = none := by
  induction fs with
  | nil => rfl
  | cons p rest ih =>
    obtain ⟨k, v⟩ := p
    by_cases hk : k = n
    · simp [fsRemove, hk, ih]
    · simp [fsRemove, fsGet, hk, ih]

theorem fsGet_fsRemove_ne (fs : Fs) (n m : String) (h : m ≠ n) :
    fsGet (fsRemove fs n) m = fsGet fs m := by
  induction fs with
  | nil => rfl
  | cons p rest ih =>
    obtain ⟨k, v⟩ := p
    by_cases hk : k = n
    · subst hk
      simp [fsRemove, fsGet, ih, Ne.symm h]
    · simp [fsRemove, fsGet, hk, ih]

theorem fsGet_fsSet_self (fs : Fs) (n : String) (v : List Nat) :
    fsGet (fsSet fs n v) n = some v := by
  simp [fsSet, fsGet]

theorem fsGet_fsSet_ne (fs : Fs) (n m : String) (v : List Nat) (h : m ≠ n) :
    fsGet (fsSet fs n v) m = fsGet fs m := by
  simp [fsSet, fsGet, Ne.symm h, fsGet_fsRemove_ne fs n m h]

theorem flatten_length_pos (l : List (List Nat)) (h0 : l ≠ [])
    (hne : ∀ c ∈ l, c ≠ []) : 0 < l.flatten.length := by
  cases l with
  | nil => exact absurd rfl h0
  | cons c cs =>
    have hc : c ≠ [] := hne c (by simp)
    have hcl : 0 < c.length := List.length_pos.mpr hc
    rw [List.flatten_cons, List.length_append]
    omega

/-- A stream of nonempty chunks whose total length is exactly what is still
missing is consumed whole: the loop writes every byte, ends with received
equal to the declared size and reports success. -/
theorem recvLoop_exact (chunks : List (List Nat)) : ∀ (buf : List Nat) (r sz : Nat),
    chunks ≠ [] → (∀ c ∈ chunks, c ≠ []) → sz = r + chunks.flatten.length →
    recvLoop sz buf r chunks = (buf ++ chunks.flatten, sz, true) := by
  induction chunks with
  | nil => intro buf r sz h; exact absurd rfl h
  | cons d rest ih =>
    intro buf r sz _ hne hsz
    have hd : d ≠ [] := hne d (by simp)
    by_cases hrest : rest = []
    · subst hrest
      simp only [List.flatten_cons, List.flatten_nil, List.append_nil] at hsz ⊢
      simp [recvLoop, hd, hsz]
    · have hpos : 0 < rest.flatten.length :=
        flatten_length_pos rest hrest (fun c hc => hne c (by simp [hc]))
      have hlt : ¬ sz ≤ r + d.length := by
        rw [hsz]; simp only [List.flatten_cons, List.length_append]; omega
      have hstep : recvLoop sz buf r (d :: rest)
          = recvLoop sz (buf ++ d) (r + d.length) rest := by
        simp [recvLoop, hd, hlt]
      rw [hstep, ih (buf ++ d) (r + d.length) sz hrest
        (fun c hc => hne c (by simp [hc]))
        (by rw [hsz]; simp only [List.flatten_cons, List.length_append]; omega)]
      simp [List.flatten_cons, List.append_assoc]

/-- The second-pass read loop feeds the whole file content to the hasher. -/
theorem rereadLoop_eq (rest fed : List Nat) : rereadLoop fed rest = fed ++ rest := by
  by_cases h : rest.length < 512
  · unfold rereadLoop
    simp [h]
  · unfold rereadLoop
    simp only [h, dite_false]
    rw [rereadLoop_eq (rest.drop 512) (fed ++ rest.take 512)]
    rw [List.append_assoc, List.take_append_drop]
termination_by rest.length
decreasing_by simp only [List.length_drop]; omega

/-- Branch equation: a read yielded zero bytes, so the command ends with
error('No file data') and the partially written temp file still on flash. -/
theorem receive_file_eq_noData (sha : List Nat → List Nat) (fs : Fs)
    (n : String) (sz : Nat) (dg : String) (chunks : List (List Nat))
    (h1 : (recvLoop sz [] 0 chunks).2.2 = false) :
    receive_file sha fs n sz dg chunks
      = ⟨fsSet fs (n ++ ".temp") (recvLoop sz [] 0 chunks).1,
         ["OK", "No file data"], Outcome.reset "No file data"⟩ := by
  unfold receive_file
  simp [h1]

/-- Branch equation: the loop completed but the temp file's size differs from
the declared size, so the command ends with error('Size error!'). -/
theorem receive_file_eq_size (sha : List Nat → List Nat) (fs : Fs)
    (n : String) (sz : Nat) (dg : String) (chunks : List (List Nat))
    (h1 : (recvLoop sz [] 0 chunks).2.2 = true)
    (h2 : ((recvLoop sz [] 0 chunks).1).length ≠ sz) :
    receive_file sha fs n sz dg chunks
      = ⟨fsSet fs (n ++ ".temp") (recvLoop sz [] 0 chunks).1,
         ["OK", "Size error!"], Outcome.reset "Size error!"⟩ := by
  unfold receive_file
  simp [h1, h2]

/-- Branch equation: the in-memory digest does not match the declared digest,
so the command ends with error('Hash error: <hexdigest>'). -/
theorem receive_file_eq_hashErr (sha : List Nat → List Nat) (fs : Fs)
    (n : String) (sz : Nat) (dg : String) (chunks : List (List Nat))
    (h1 : (recvLoop sz [] 0 chunks).2.2 = true)
    (h2 : ((recvLoop sz [] 0 chunks).1).length = sz)
    (h3 : hexlify (sha (recvLoop sz [] 0 chunks).1) ≠ dg) :
    receive_file sha fs n sz dg chunks
      = ⟨fsSet fs (n ++ ".temp") (recvLoop sz [] 0 chunks).1,
         ["OK", "Hash error: " ++ hexlify (sha (recvLoop sz [] 0 chunks).1)],
         Outcome.reset ("Hash error: " ++ hexlify (sha (recvLoop sz [] 0 chunks).1))⟩ := by
  unfold receive_file
  simp [h1, h2, h3]

/-- Branch equation: both digest checks pass (the second pass re-reads exactly
the bytes that were written, so it agrees with the first), and the file is
committed: old target removed, temp renamed to target, stale same-base .py
removed for a .mpy target, final idempotent temp deletion. -/
theorem receive_file_eq_commit (sha : List Nat → List Nat) (fs : Fs)
    (n : String) (sz : Nat) (dg : String) (chunks : List (List Nat))
    (h1 : (recvLoop sz [] 0 chunks).2.2 = true)
    (h2 : ((recvLoop sz [] 0 chunks).1).length = sz)
    (h3 : hexlify (sha (recvLoop sz [] 0 chunks).1) = dg) :
    receive_file sha fs n sz dg chunks
      = ⟨fsRemove
           (if strEndsWith n ".mpy" = true then
              fsRemove
                (fsRename (fsRemove (fsSet fs (n ++ ".temp") (recvLoop sz [] 0 chunks).1) n)
                  (n ++ ".temp") n)
                (pyName n)
            else
              fsRename (fsRemove (fsSet fs (n ++ ".temp") (recvLoop sz [] 0 chunks).1) n)
                (n ++ ".temp") n)
           (n ++ ".temp"),
         ["OK", "OK"], Outcome.ok⟩ := by
  have hre : rereadLoop [] (recvLoop sz [] 0 chunks).1 = (recvLoop sz [] 0 chunks).1 := by
    rw [rereadLoop_eq]; simp
  unfold receive_file
  simp [h1, h2, h3, hre]

/-- Every failing branch of command_receive_file writes exactly the header
acknowledgement followed by the error text it resets with. -/
theorem receive_file_reset_lines (sha : List Nat → List Nat) (fs : Fs)
    (n : String) (sz : Nat) (dg : String) (chunks : List (List Nat)) (reason : String)
    (h : (receive_file sha fs n sz dg chunks).outcome = Outcome.reset reason) :
    (receive_file sha fs n sz dg chunks).lines = ["OK", reason] := by
  by_cases h1 : (recvLoop sz [] 0 chunks).2.2 = false
  · rw [receive_file_eq_noData sha fs n sz dg chunks h1] at h ⊢
    simp only [Outcome.reset.injEq] at h
    rw [← h]
  · have h1' : (recvLoop sz [] 0 chunks).2.2 = true := by
      revert h1; cases (recvLoop sz [] 0 chunks).2.2 <;> simp
    by_cases h2 : ((recvLoop sz [] 0 chunks).1).length = sz
    · by_cases h3 : hexlify (sha (recvLoop sz [] 0 chunks).1) = dg
      · rw [receive_file_eq_commit sha fs n sz dg chunks h1' h2 h3] at h
        simp at h
      · rw [receive_file_eq_hashErr sha fs n sz dg chunks h1' h2 h3] at h ⊢
        simp only [Outcome.reset.injEq] at h
        rw [← h]
    · rw [receive_file_eq_size sha fs n sz dg chunks h1' h2] at h ⊢
      simp only [Outcome.reset.injEq] at h
      rw [← h]

/-! Claim theorems. -/

/-- C10: for every receive_file invocation with declared size 0, no file is
ever committed under the target name: the loop always reads once before the
size condition is checked, so an immediately-ended stream yields the 'No file
data' error and any non-empty first chunk makes the temp file's size differ
from the declared 0, failing with 'Size error!'; the target name is untouched
either way, so a zero-length file cannot be installed through receive_file. -/
theorem C10_zero_size_never_commits (sha : List Nat → List Nat) (fs : Fs)
    (n dg : String) (chunks : List (List Nat)) :
    ((receive_file sha fs n 0 dg chunks).outcome = Outcome.reset "No file data" ∨
     (receive_file sha fs n 0 dg chunks).outcome = Outcome.reset "Size error!") ∧
    (receive_file sha fs n 0 dg chunks).outcome ≠ Outcome.ok ∧
    fsGet (receive_file sha fs n 0 dg chunks).fs n = fsGet fs n := by
  have hframe : ∀ buf : List Nat, fsGet (fsSet fs (n ++ ".temp") buf) n = fsGet fs n :=
    fun buf => fsGet_fsSet_ne fs (n ++ ".temp") n buf (temp_name_ne n)
  cases chunks with
  | nil =>
    have h1 : (recvLoop 0 [] 0 ([] : List (List Nat))).2.2 = false := rfl
    rw [receive_file_eq_noData sha fs n 0 dg [] h1]
    exact ⟨Or.inl rfl, by simp, hframe _⟩
  | cons d rest =>
    by_cases hd : d = []
    · have h1 : (recvLoop 0 [] 0 (d :: rest)).2.2 = false := by
        subst hd; simp [recvLoop]
      rw [receive_file_eq_noData sha fs n 0 dg (d :: rest) h1]
      exact ⟨Or.inl rfl, by simp, hframe _⟩
    · have hloop : recvLoop 0 [] 0 (d :: rest) = (d, d.length, true) := by
        simp [recvLoop, hd]
      have h1 : (recvLoop 0 [] 0 (d :: rest)).2.2 = true := by rw [hloop]
      have h2 : ((recvLoop 0 [] 0 (d :: rest)).1).length ≠ 0 := by
        rw [hloop]; simpa using hd
      rw [receive_file_eq_size sha fs n 0 dg (d :: rest) h1 h2]
      exact ⟨Or.inr rfl, by simp, hframe _⟩

/-- C10 witness: at declared size 0 with a nonempty first chunk, nothing is
committed and the outcome is not OK. -/
theorem C10_zero_size_never_commits_witness :
    (receive_file shaX [] "z" 0 "00" [[1]]).outcome ≠ Outcome.ok ∧
    fsGet (receive_file shaX [] "z" 0 "00" [[1]]).fs "z" = fsGet [] "z" :=
  ⟨(C10_zero_size_never_commits shaX [] "z" "00" [[1]]).2.1,
   (C10_zero_size_never_commits shaX [] "z" "00" [[1]]).2.2⟩

/-- C4 counterexample: an invocation whose written temp file (size 0) differs
from the declared size 3, yet whose failure line is 'No file data', not 'Size
error!': the stream ended before the size check was reached, so not every
size-mismatched invocation fails with the 'Size error!' line. -/
theorem C4_counterexample :
    fsGet (receive_file shaX [] "t" 3 "00" []).fs "t.temp" = some [] ∧
    (receive_file shaX [] "t" 3 "00" []).lines = ["OK", "No file data"] ∧
    "Size error!" ∉ (receive_file shaX [] "t" 3 "00" []).lines := by decide

/-- C4 (amended): if the receive loop completes and the temp file's size
differs from the declared size, the command fails with the 'Size error!'
line; if the stream is starved first it fails with 'No file data' instead;
in every non-OK outcome the pre-existing target is unchanged (the target name
is only touched in the commit branch). -/
theorem C4_size_check (sha : List Nat → List Nat) (fs : Fs) (n : String)
    (sz : Nat) (dg : String) (chunks : List (List Nat)) :
    ((recvLoop sz [] 0 chunks).2.2 = true → ((recvLoop sz [] 0 chunks).1).length ≠ sz →
      (receive_file sha fs n sz dg chunks).outcome = Outcome.reset "Size error!" ∧
      (receive_file sha fs n sz dg chunks).lines = ["OK", "Size error!"]) ∧
    ((recvLoop sz [] 0 chunks).2.2 = false →
      (receive_file sha fs n sz dg chunks).outcome = Outcome.reset "No file data") ∧
    ((receive_file sha fs n sz dg chunks).outcome ≠ Outcome.ok →
      fsGet (receive_file sha fs n sz dg chunks).fs n = fsGet fs n) := by
  have hframe : ∀ buf : List Nat, fsGet (fsSet fs (n ++ ".temp") buf) n = fsGet fs n :=
    fun buf => fsGet_fsSet_ne fs (n ++ ".temp") n buf (temp_name_ne n)
  refine ⟨?_, ?_, ?_⟩
  · intro h1 h2
    rw [receive_file_eq_size sha fs n sz dg chunks h1 h2]
    exact ⟨rfl, rfl⟩
  · intro h1
    rw [receive_file_eq_noData sha fs n sz dg chunks h1]
  · intro hok
    by_cases h1 : (recvLoop sz [] 0 chunks).2.2 = false
    · rw [receive_file_eq_noData sha fs n sz dg chunks h1]
      exact hframe _
    · have h1' : (recvLoop sz [] 0 chunks).2.2 = true := by
        revert h1; cases (recvLoop sz [] 0 chunks).2.2 <;> simp
      by_cases h2 : ((recvLoop sz [] 0 chunks).1).length = sz
      · by_cases h3 : hexlify (sha (recvLoop sz [] 0 chunks).1) = dg
        · exact absurd (by rw [receive_file_eq_commit sha fs n sz dg chunks h1' h2 h3]) hok
        · rw [receive_file_eq_hashErr sha fs n sz dg chunks h1' h2 h3]
          exact hframe _
      · rw [receive_file_eq_size sha fs n sz dg chunks h1' h2]
        exact hframe _

/-- C4 witness: an overshooting stream (2 bytes against a declared size of 1)
fails with 'Size error!'. -/
theorem C4_size_check_witness :
    (receive_file shaX [] "s4" 1 "00" [[1, 2]]).outcome = Outcome.reset "Size error!" ∧
    (receive_file shaX [] "s4" 1 "00" [[1, 2]]).lines = ["OK", "Size error!"] :=
  (C4_size_check shaX [] "s4" 1 "00" [[1, 2]]).1 (by decide) (by decide)

/-- C5 counterexample: after a digest-mismatch failure the command is over
(the device reset), yet the '<target>.temp' file still exists in storage: the
reset fired inside error() before the finally-block deletion could run. -/
theorem C5_counterexample :
    (receive_file shaX [] "w" 1 "zz" [[9]]).outcome = Outcome.reset "Hash error: 00" ∧
    fsGet (receive_file shaX [] "w" 1 "zz" [[9]]).fs "w.temp" = some [9] := by decide

/-- C5 (amended): on a successful commit no '<target>.temp' file remains (the
temp file was renamed away and the final deletion attempt is idempotent), but
on every error outcome ('No file data', 'Size error!', 'Hash error: ...') the
device resets inside error() before the finally block runs, so the temp file
remains in storage with the bytes received so far. -/
theorem C5_temp_cleanup (sha : List Nat → List Nat) (fs : Fs) (n : String)
    (sz : Nat) (dg : String) (chunks : List (List Nat)) :
    ((receive_file sha fs n sz dg chunks).outcome = Outcome.ok →
      fsGet (receive_file sha fs n sz dg chunks).fs (n ++ ".temp") = none) ∧
    (∀ reason, (receive_file sha fs n sz dg chunks).outcome = Outcome.reset reason →
      fsGet (receive_file sha fs n sz dg chunks).fs (n ++ ".temp")
        = some (recvLoop sz [] 0 chunks).1) := by
  by_cases h1 : (recvLoop sz [] 0 chunks).2.2 = false
  · rw [receive_file_eq_noData sha fs n sz dg chunks h1]
    refine ⟨fun h => by simp at h, fun reason _ => fsGet_fsSet_self fs (n ++ ".temp") _⟩
  · have h1' : (recvLoop sz [] 0 chunks).2.2 = true := by
      revert h1; cases (recvLoop sz [] 0 chunks).2.2 <;> simp
    by_cases h2 : ((recvLoop sz [] 0 chunks).1).length = sz
    · by_cases h3 : hexlify (sha (recvLoop sz [] 0 chunks).1) = dg
      · rw [receive_file_eq_commit sha fs n sz dg chunks h1' h2 h3]
        refine ⟨fun _ => fsGet_fsRemove_self _ _, fun reason h => by simp at h⟩
      · rw [receive_file_eq_hashErr sha fs n sz dg chunks h1' h2 h3]
        refine ⟨fun h => by simp at h, fun reason _ => fsGet_fsSet_self fs (n ++ ".temp") _⟩
    · rw [receive_file_eq_size sha fs n sz dg chunks h1' h2]
      refine ⟨fun h => by simp at h, fun reason _ => fsGet_fsSet_self fs (n ++ ".temp") _⟩

/-- C5 witness: a successful commit leaves no temp file; a digest-mismatch
failure leaves the temp file behind. -/
theorem C5_temp_cleanup_witness :
    fsGet (receive_file shaW [] "app.py" 2 "02" [[7], [8]]).fs ("app.py" ++ ".temp") = none ∧
    fsGet (receive_file shaX [] "w5" 1 "zz" [[9]]).fs ("w5" ++ ".temp")
      = some (recvLoop 1 [] 0 [[9]]).1 :=
  ⟨(C5_temp_cleanup shaW [] "app.py" 2 "02" [[7], [8]]).1
     (by rw [receive_file_eq_commit shaW [] "app.py" 2 "02" [[7], [8]] rfl rfl (by decide)]),
   (C5_temp_cleanup shaX [] "w5" 1 "zz" [[9]]).2 "Hash error: 00" (by decide)⟩

/-- C3 counterexample: a digest-mismatch failure writes the 'Hash error:
<hexdigest>' line and commits nothing, but the temp file still exists
afterwards, contradicting the claim that it no longer exists. -/
theorem C3_counterexample :
    (receive_file shaX [] "h3" 1 "ff" [[3]]).outcome = Outcome.reset "Hash error: 00" ∧
    (receive_file shaX [] "h3" 1 "ff" [[3]]).lines = ["OK", "Hash error: 00"] ∧
    fsGet (receive_file shaX [] "h3" 1 "ff" [[3]]).fs "h3.temp" = some [3] := by decide

/-- C3 (amended): the commit happens only if both digest computations (the
running one over the streamed bytes, and the re-read of the temp file) match
the declared digest; when the transfer completed, the size check passed and
the digest does not match, the command fails with the line 'Hash error:
<hexdigest>', no commit occurs (the target is unchanged), but the temp file
still exists afterwards because the device reset skips the finally cleanup. -/
theorem C3_double_hash (sha : List Nat → List Nat) (fs : Fs) (n : String)
    (sz : Nat) (dg : String) (chunks : List (List Nat)) :
    ((receive_file sha fs n sz dg chunks).outcome = Outcome.ok →
      hexlify (sha (recvLoop sz [] 0 chunks).1) = dg ∧
      hexlify (sha (rereadLoop [] (recvLoop sz [] 0 chunks).1)) = dg) ∧
    ((recvLoop sz [] 0 chunks).2.2 = true → ((recvLoop sz [] 0 chunks).1).length = sz →
      hexlify (sha (recvLoop sz [] 0 chunks).1) ≠ dg →
      (receive_file sha fs n sz dg chunks).outcome
        = Outcome.reset ("Hash error: " ++ hexlify (sha (recvLoop sz [] 0 chunks).1)) ∧
      fsGet (receive_file sha fs n sz dg chunks).fs n = fsGet fs n ∧
      fsGet (receive_file sha fs n sz dg chunks).fs (n ++ ".temp")
        = some (recvLoop sz [] 0 chunks).1) := by
  constructor
  · intro h
    by_cases h1 : (recvLoop sz [] 0 chunks).2.2 = false
    · rw [receive_file_eq_noData sha fs n sz dg chunks h1] at h; simp at h
    · have h1' : (recvLoop sz [] 0 chunks).2.2 = true := by
        revert h1; cases (recvLoop sz [] 0 chunks).2.2 <;> simp
      by_cases h2 : ((recvLoop sz [] 0 chunks).1).length = sz
      · by_cases h3 : hexlify (sha (recvLoop sz [] 0 chunks).1) = dg
        · refine ⟨h3, ?_⟩
          rw [rereadLoop_eq]
          simpa using h3
        · rw [receive_file_eq_hashErr sha fs n sz dg chunks h1' h2 h3] at h; simp at h
      · rw [receive_file_eq_size sha fs n sz dg chunks h1' h2] at h; simp at h
  · intro h1 h2 h3
    rw [receive_file_eq_hashErr sha fs n sz dg chunks h1 h2 h3]
    exact ⟨rfl, fsGet_fsSet_ne fs (n ++ ".temp") n _ (temp_name_ne n),
      fsGet_fsSet_self fs (n ++ ".temp") _⟩

/-- C3 witness: a successful commit has both digest computations matching; a
mismatch yields the 'Hash error' reset with the temp file left behind. -/
theorem C3_double_hash_witness :
    (hexlify (shaW (recvLoop 2 [] 0 [[7], [8]]).1) = "02" ∧
     hexlify (shaW (rereadLoop [] (recvLoop 2 [] 0 [[7], [8]]).1)) = "02") ∧
    ((receive_file shaX [] "x3" 1 "ff" [[4]]).outcome
        = Outcome.reset ("Hash error: " ++ hexlify (shaX (recvLoop 1 [] 0 [[4]]).1)) ∧
     fsGet (receive_file shaX [] "x3" 1 "ff" [[4]]).fs "x3" = fsGet [] "x3" ∧
     fsGet (receive_file shaX [] "x3" 1 "ff" [[4]]).fs ("x3" ++ ".temp")
        = some (recvLoop 1 [] 0 [[4]]).1) :=
  ⟨(C3_double_hash shaW [] "ok3.py" 2 "02" [[7], [8]]).1
     (by rw [receive_file_eq_commit shaW [] "ok3.py" 2 "02" [[7], [8]] rfl rfl (by decide)]),
   (C3_double_hash shaX [] "x3" 1 "ff" [[4]]).2 (by decide) (by decide) (by decide)⟩

/-- C1 counterexample: a receive_file invocation failing with DigestMismatch
writes its error line, but then the device resets ('Hash error: 00' becomes
the reset reason) and a subsequent send_ok command on the same connection is
never processed: the session's output ends at the error line, contradicting
local recoverability. -/
theorem C1_counterexample :
    (sessionRun shaX infoX ⟨[], []⟩ [fileEvent "f" 1 "ff" [[5]], lineEvent "send_ok"]).2
      = SessEnd.resetDev "Hash error: 00" ∧
    (sessionRun shaX infoX ⟨[], []⟩ [fileEvent "f" 1 "ff" [[5]], lineEvent "send_ok"]).1.out
      = ["OK", "Hash error: 00"] := by decide

/-- C1 (amended): every receive_file failure (NoFileData, SizeMismatch or
DigestMismatch) is reported to the remote peer as a text error line (it is
the last line the command writes), but it is not locally recoverable:
error() is invoked with do_reset left at its default True, so the device
resets with that error text as reason, the command loop does not continue,
and any further commands on the connection are not processed. -/
theorem C1_receive_errors_reset (sha : List Nat → List Nat)
    (info : String → List String) (fs : Fs) (out : List String) (n : String)
    (sz : Nat) (dg : String) (chunks : List (List Nat)) (rest : List Event)
    (reason : String)
    (h : (receive_file sha fs n sz dg chunks).outcome = Outcome.reset reason) :
    (sessionRun sha info ⟨fs, out⟩ (fileEvent n sz dg chunks :: rest)).2
      = SessEnd.resetDev reason ∧
    (receive_file sha fs n sz dg chunks).lines = ["OK", reason] := by
  have hl := receive_file_reset_lines sha fs n sz dg chunks reason h
  have hc : supportedCommands.contains "receive_file" = true := by decide
  have hm : "receive_file" ∈ supportedCommands := by decide
  constructor
  · simp [sessionRun, sessionStep, fileEvent, hc, hm, h]
  · exact hl

/-- C1 witness: a starved stream resets the device with reason 'No file
data' even though another command was waiting on the connection. -/
theorem C1_receive_errors_reset_witness :
    (receive_file shaX [] "g" 1 "aa" []).outcome = Outcome.reset "No file data" ∧
    ((sessionRun shaX infoX ⟨[], []⟩ (fileEvent "g" 1 "aa" [] :: [lineEvent "send_ok"])).2
       = SessEnd.resetDev "No file data" ∧
     (receive_file shaX [] "g" 1 "aa" []).lines = ["OK", "No file data"]) :=
  ⟨by decide,
   C1_receive_errors_reset shaX infoX [] [] "g" 1 "aa" [] [lineEvent "send_ok"]
     "No file data" (by decide)⟩

/-- C8: a command line whose name resolves to no handler is answered with the
error line 'Command unknown!' via error(..., do_reset=False), and the session
loop simply continues: a following send_ok command is still dispatched and
answered 'OK'. -/
theorem C8_unknown_command_continues (sha : List Nat → List Nat)
    (info : String → List String) (st : SessState) (name : String)
    (rest : List Event)
    (h : supportedCommands.contains name = false) :
    sessionRun sha info st (lineEvent name :: lineEvent "send_ok" :: rest)
      = sessionRun sha info ⟨st.fs, st.out ++ ["Command unknown!", "OK"]⟩ rest := by
  have hc : supportedCommands.contains "send_ok" = true := by decide
  have hcm : "send_ok" ∈ supportedCommands := by decide
  have hm : name ∉ supportedCommands := by simpa using h
  simp [sessionRun, sessionStep, lineEvent, h, hc, hcm, hm]

/-- C8 witness: the unknown command 'bogus' is answered 'Command unknown!'
and the following send_ok still succeeds. -/
theorem C8_unknown_command_continues_witness :
    supportedCommands.contains "bogus" = false ∧
    sessionRun shaX infoX ⟨[], []⟩ [lineEvent "bogus", lineEvent "send_ok"]
      = sessionRun shaX infoX ⟨[], ["Command unknown!", "OK"]⟩ [] :=
  ⟨by decide,
   by simpa using C8_unknown_command_continues shaX infoX ⟨[], []⟩ "bogus" [] (by decide)⟩

/-- C9: when a dispatched handler raises an Exception, the try/except of the
command loop catches it, answers the generic 'Command error' line via
error(..., do_reset=False), and the loop continues with the next command;
the session is not terminated.  (sys.exit in command_exit raises SystemExit,
which 'except Exception' does not catch — that is orderly termination, not a
handler failure; and the receive_file error paths reset before any exception
reaches the dispatcher.) -/
theorem C9_handler_error_continues (sha : List Nat → List Nat)
    (info : String → List String) (st : SessState) (c : String)
    (rest : List Event)
    (h : supportedCommands.contains c = true) :
    sessionRun sha info st (faultyEvent c :: rest)
      = sessionRun sha info ⟨st.fs, st.out ++ ["Command error"]⟩ rest := by
  have hm : c ∈ supportedCommands := by simpa using h
  simp [sessionRun, sessionStep, faultyEvent, h, hm]

/-- C9 witness: a flash_info handler that raises is answered 'Command error'
and the session keeps running. -/
theorem C9_handler_error_continues_witness :
    supportedCommands.contains "flash_info" = true ∧
    sessionRun shaX infoX ⟨[], []⟩ [faultyEvent "flash_info"]
      = sessionRun shaX infoX ⟨[], ["Command error"]⟩ [] :=
  ⟨by decide,
   by simpa using C9_handler_error_continues shaX infoX ⟨[], []⟩ "flash_info" [] (by decide)⟩

/-- C7 counterexample: arming a new guard does not implicitly disarm the
prior one — Timeout.__init__ creates an independent virtual timer, so arming
the session guard while the connection-wait guard were still armed would
leave two guards armed.  The invariant holds only because __call__ calls
deinit() explicitly before constructing the new Timeout. -/
theorem C7_counterexample :
    timeoutInit ⟨["soft-OTA no connection"]⟩ "soft-OTA timeout"
      = ⟨["soft-OTA no connection", "soft-OTA timeout"]⟩ ∧
    (timeoutInit ⟨["soft-OTA no connection"]⟩ "soft-OTA timeout").armed.length = 2 := by
  decide

/-- C7 (amended): along every event sequence the program can execute (run,
then accept, then exit), at most one guard is armed at a time, because the
prior guard is explicitly deinit-ed just before the next one is armed; in
particular the 'soft-OTA no connection' guard is armed after run() and is
replaced by the 'soft-OTA timeout' guard exactly at accept. -/
theorem C7_one_guard_armed :
    (∀ es ∈ otaTraces, (otaRun es).armed.length ≤ 1) ∧
    otaRun [OtaEvent.runStart] = ⟨["soft-OTA no connection"]⟩ ∧
    otaRun [OtaEvent.runStart, OtaEvent.acceptConn] = ⟨["soft-OTA timeout"]⟩ := by
  decide

/-- C7 witness: after run() and accept, exactly one guard is armed. -/
theorem C7_one_guard_armed_witness :
    (otaRun [OtaEvent.runStart, OtaEvent.acceptConn]).armed.length ≤ 1 :=
  C7_one_guard_armed.1 [OtaEvent.runStart, OtaEvent.acceptConn] (by decide)

/-- C2 counterexample: for the empty byte sequence (declared size 0 and a
correctly computed digest of the empty input), receive_file does not commit
and respond OK — the unconditional first read yields no bytes, so the command
fails with 'No file data' and nothing is stored under the target name. -/
theorem C2_counterexample :
    "00" = hexlify (shaX []) ∧
    (receive_file shaX [] "e" (([] : List Nat).length) "00" []).outcome
      = Outcome.reset "No file data" ∧
    fsGet (receive_file shaX [] "e" (([] : List Nat).length) "00" []).fs "e" = none := by
  decide

/-- C2 (amended): for every nonempty byte sequence B streamed exactly (as
nonempty chunks of at most the 512-byte chunk size) with declared size |B| and
the correctly computed lowercase SHA-256 hex digest of B, receive_file commits
B under the target name (replacing any pre-existing file), responds OK, leaves
no temp file, and for a '.mpy' target also removes the same-base-name '.py'
file; reading the committed file afterwards returns exactly B.  (For empty B
the command instead fails with 'No file data' and commits nothing.) -/
theorem C2_round_trip (sha : List Nat → List Nat) (fs : Fs) (n dg : String)
    (chunks : List (List Nat)) (B : List Nat)
    (hB : B ≠ []) (hch : ∀ c ∈ chunks, c ≠ [] ∧ c.length ≤ 512)
    (hflat : chunks.flatten = B) (hdg : dg = hexlify (sha B)) :
    (receive_file sha fs n B.length dg chunks).outcome = Outcome.ok ∧
    (receive_file sha fs n B.length dg chunks).lines = ["OK", "OK"] ∧
    fsGet (receive_file sha fs n B.length dg chunks).fs n = some B ∧
    fsGet (receive_file sha fs n B.length dg chunks).fs (n ++ ".temp") = none ∧
    (strEndsWith n ".mpy" = true →
      fsGet (receive_file sha fs n B.length dg chunks).fs (pyName n) = none) := by
  have hchne : chunks ≠ [] := by
    intro hc
    rw [hc] at hflat
    simp at hflat
    exact hB hflat
  have hloop : recvLoop B.length [] 0 chunks = (B, B.length, true) := by
    have hx := recvLoop_exact chunks [] 0 B.length hchne
      (fun c hc => (hch c hc).1) (by simp [hflat])
    simpa [hflat] using hx
  have h1 : (recvLoop B.length [] 0 chunks).2.2 = true := by rw [hloop]
  have h2 : ((recvLoop B.length [] 0 chunks).1).length = B.length := by rw [hloop]
  have h3 : hexlify (sha (recvLoop B.length [] 0 chunks).1) = dg := by rw [hloop, hdg]
  have hren : fsRename (fsRemove (fsSet fs (n ++ ".temp") B) n) (n ++ ".temp") n
      = fsSet (fsRemove (fsRemove (fsSet fs (n ++ ".temp") B) n) (n ++ ".temp")) n B := by
    unfold fsRename
    rw [fsGet_fsRemove_ne _ n (n ++ ".temp") (Ne.symm (temp_name_ne n)),
      fsGet_fsSet_self]
  rw [receive_file_eq_commit sha fs n B.length dg chunks h1 h2 h3]
  simp only [hloop]
  refine ⟨trivial, trivial, ?_, ?_, ?_⟩
  · rw [fsGet_fsRemove_ne _ (n ++ ".temp") n (temp_name_ne n)]
    by_cases hmpy : strEndsWith n ".mpy" = true
    · rw [if_pos hmpy,
        fsGet_fsRemove_ne _ (pyName n) n (Ne.symm (pyName_ne_self n hmpy)),
        hren, fsGet_fsSet_self]
    · rw [if_neg hmpy, hren, fsGet_fsSet_self]
  · exact fsGet_fsRemove_self _ _
  · intro hmpy
    rw [fsGet_fsRemove_ne _ (n ++ ".temp") (pyName n) (pyName_ne_temp n),
      if_pos hmpy]
    exact fsGet_fsRemove_self _ _

/-- C2 witness: the two-byte file [7, 8] streamed in two chunks with its
correctly computed digest is committed under 'app.mpy', the stale 'app.py' is
removed, no temp file remains and reading it back yields [7, 8]. -/
theorem C2_round_trip_witness :
    (([7, 8] : List Nat) ≠ [] ∧ "02" = hexlify (shaW [7, 8])) ∧
    ((receive_file shaW [] "app.mpy" (([7, 8] : List Nat).length) "02" [[7], [8]]).outcome
       = Outcome.ok ∧
     (receive_file shaW [] "app.mpy" (([7, 8] : List Nat).length) "02" [[7], [8]]).lines
       = ["OK", "OK"] ∧
     fsGet (receive_file shaW [] "app.mpy" (([7, 8] : List Nat).length) "02" [[7], [8]]).fs
       "app.mpy" = some [7, 8] ∧
     fsGet (receive_file shaW [] "app.mpy" (([7, 8] : List Nat).length) "02" [[7], [8]]).fs
       ("app.mpy" ++ ".temp") = none ∧
     (strEndsWith "app.mpy" ".mpy" = true →
       fsGet (receive_file shaW [] "app.mpy" (([7, 8] : List Nat).length) "02" [[7], [8]]).fs
         (pyName "app.mpy") = none)) :=
  ⟨⟨by decide, by decide⟩,
   C2_round_trip shaW [] "app.mpy" "02" [[7], [8]] [7, 8]
     (by decide) (by decide) (by decide) (by decide)⟩

/-- The receive loop consumes some prefix of the chunk stream: the bytes
written are exactly that prefix's bytes in order, `received` grows by exactly
the length of each chunk read, the loop only continued into another read
while `received` was still below the declared size, success means the
declared size was reached, and failure means the next read yielded no bytes. -/
theorem recvLoop_spec (chunks : List (List Nat)) : ∀ (buf0 : List Nat) (r0 sz : Nat),
    ∃ k : Nat,
      (recvLoop sz buf0 r0 chunks).1 = buf0 ++ ((chunks.take k).flatten) ∧
      (recvLoop sz buf0 r0 chunks).2.1 = r0 + ((chunks.take k).flatten).length ∧
      (∀ j : Nat, 0 < j → j < k → r0 + ((chunks.take j).flatten).length < sz) ∧
      ((recvLoop sz buf0 r0 chunks).2.2 = true →
        sz ≤ (recvLoop sz buf0 r0 chunks).2.1 ∧ ∀ c ∈ chunks.take k, c ≠ []) ∧
      ((recvLoop sz buf0 r0 chunks).2.2 = false → (chunks.drop k).headD [] = []) := by
  induction chunks with
  | nil =>
    intro buf0 r0 sz
    refine ⟨0, ?_, ?_, ?_, ?_, ?_⟩ <;> simp [recvLoop]
  | cons d rest ih =>
    intro buf0 r0 sz
    by_cases hd : d = []
    · refine ⟨0, ?_, ?_, ?_, ?_, ?_⟩ <;> simp [recvLoop, hd]
    · by_cases hsz : sz ≤ r0 + d.length
      · have hstep : recvLoop sz buf0 r0 (d :: rest) = (buf0 ++ d, r0 + d.length, true) := by
          simp [recvLoop, hd, hsz]
        refine ⟨1, ?_, ?_, ?_, ?_, ?_⟩
        · rw [hstep]; simp
        · rw [hstep]; simp
        · intro j hj0 hj1; omega
        · rw [hstep]
          intro _
          refine ⟨hsz, ?_⟩
          simp [hd]
        · rw [hstep]
          intro hf
          simp at hf
      · have hstep : recvLoop sz buf0 r0 (d :: rest)
            = recvLoop sz (buf0 ++ d) (r0 + d.length) rest := by
          simp [recvLoop, hd, hsz]
        obtain ⟨k, ih1, ih2, ih3, ih4, ih5⟩ := ih (buf0 ++ d) (r0 + d.length) sz
        refine ⟨k + 1, ?_, ?_, ?_, ?_, ?_⟩
        · rw [hstep, ih1]
          simp [List.take_succ_cons, List.flatten_cons, List.append_assoc]
        · rw [hstep, ih2]
          simp only [List.take_succ_cons, List.flatten_cons, List.length_append]
          omega
        · intro j hj0 hjk
          obtain ⟨m, rfl⟩ : ∃ m, j = m + 1 := ⟨j - 1, by omega⟩
          simp only [List.take_succ_cons, List.flatten_cons, List.length_append]
          by_cases hm : m = 0
          · subst hm
            simp only [List.take_zero, List.flatten_nil, List.length_nil]
            omega
          · have h3' := ih3 m (by omega) (by omega)
            omega
        · rw [hstep]
          intro ht
          obtain ⟨hle, hmem⟩ := ih4 ht
          refine ⟨hle, ?_⟩
          intro c hc
          simp only [List.take_succ_cons, List.mem_cons] at hc
          rcases hc with rfl | hc
          · exact hd
          · exact hmem c hc
        · rw [hstep]
          intro hf
          rw [List.drop_succ_cons]
          exact ih5 hf

/-- C6: during every receive_file transfer, `received` only ever increases —
the final value is the initial one plus the total length of the prefix of
chunks the loop consumed, each iteration adding the length of the chunk just
read — and the loop keeps reading exactly while `received` is below the
declared size, terminating successfully at the first check where it reached
(or passed) it; a read that yields zero bytes before that point makes the
command fail with 'No file data'. -/
theorem C6_received_monotone (sz : Nat) (chunks : List (List Nat))
    (buf0 : List Nat) (r0 : Nat) (sha : List Nat → List Nat) (fs : Fs)
    (n dg : String) :
    (∃ k : Nat,
      (recvLoop sz buf0 r0 chunks).1 = buf0 ++ ((chunks.take k).flatten) ∧
      (recvLoop sz buf0 r0 chunks).2.1 = r0 + ((chunks.take k).flatten).length ∧
      (∀ j : Nat, 0 < j → j < k → r0 + ((chunks.take j).flatten).length < sz) ∧
      ((recvLoop sz buf0 r0 chunks).2.2 = true →
        sz ≤ (recvLoop sz buf0 r0 chunks).2.1 ∧ ∀ c ∈ chunks.take k, c ≠ []) ∧
      ((recvLoop sz buf0 r0 chunks).2.2 = false → (chunks.drop k).headD [] = [])) ∧
    r0 ≤ (recvLoop sz buf0 r0 chunks).2.1 ∧
    ((recvLoop sz [] 0 chunks).2.2 = false →
      (receive_file sha fs n sz dg chunks).outcome = Outcome.reset "No file data") := by
  refine ⟨recvLoop_spec chunks buf0 r0 sz, ?_, ?_⟩
  · obtain ⟨k, _, h2, _, _, _⟩ := recvLoop_spec chunks buf0 r0 sz
    rw [h2]
    omega
  · intro hf
    rw [receive_file_eq_noData sha fs n sz dg chunks hf]

/-- C6 witness: a stream that delivers one byte against a declared size of 2
and then ends makes the command fail with 'No file data'. -/
theorem C6_received_monotone_witness :
    (receive_file shaX [] "c6" 2 "00" [[1]]).outcome = Outcome.reset "No file data" :=
  (C6_received_monotone 2 [[1]] [] 0 shaX [] "c6" "00").2.2 rfl

end OtaClient
